import Mathlib

/-!
# ThesisCode: the record dump (`vardump.cpp`) and the accelerator driver program (`main.c`)

A shallow embedding of

* `TopN_Outlier_Pruning_Block/source/vardump.cpp`: `save_vardump`,
  `read_vardump_from_file`, `read_vardump_from_array` and their helpers;
* `TopN_Outlier_Pruning_Block/FPGA/SDK/distance_squared_0/src/main.c`:
  `ExampleStart`, `ExampleIsr`, `SetupInterrupt`, `init_dma`,
  `distance_squared_sw` and `main`.

Conventions.  A byte is a natural number below 256 and a stream is a list of
bytes.  Objects are laid out little-endian; `size_t`, `long unsigned int`,
`double` and data pointers are 8 bytes wide and `unsigned int` is 4 bytes wide
(LP64).  In the dump code a `double` is carried by its 64-bit object
representation: that code only copies doubles, it never computes with them.
A region of memory is a function from byte offset to byte, so that reading past
the end of an array is a read of whatever the region holds there.  In `main.c`
a `double` is an IEEE 754 binary64 number, and every subtraction,
multiplication and addition is rounded once, to nearest with ties to even.
-/

/-! ## Part 1: `vardump.cpp` -/

/-- Modelled from the spec: the status codes of the persistence collaborator.
They are declared in `utility.h`, which is not among the sources, so they are
kept symbolic. -/
inductive Status where
  | SUCCESS
  | FILE_NOT_FOUND
  | FILE_IO_ERROR
  | MALLOC_FAILED
  | FILE_EXPECTED_EOF
  deriving DecidableEq, Repr

/-- Ways in which a run does not reach its `return`: a dereference of a null
pointer, or a loop that has not finished within the step budget. -/
inductive Stop where
  | null_dereference
  | out_of_steps
  deriving DecidableEq, Repr

/-- Bytes of memory, indexed by offset from a base address. -/
abbrev Region := Nat → Nat

/-- Width in bytes of `size_t`. -/
def sizeof_size_t : Nat := 8

/-- Width in bytes of `double`. -/
def sizeof_double : Nat := 8

/-- Width in bytes of `long unsigned int`. -/
def sizeof_long_unsigned_int : Nat := 8

/-- Width in bytes of `unsigned int`. -/
def sizeof_unsigned_int : Nat := 4

/-- Number of values of a `size_t`. -/
def SIZE_T_RANGE : Nat := 2 ^ 64

/-- Number of values of an `unsigned int`. -/
def UINT_RANGE : Nat := 2 ^ 32

/-- The object representation of the value `v` in `size` bytes, least
significant byte first. -/
def object_bytes (size v : Nat) : List Nat :=
  (List.range size).map fun i => v / 256 ^ i % 256

/-- The value whose object representation is the given bytes. -/
def object_value : List Nat → Nat
  | [] => 0
  | b :: bs => b + 256 * object_value bs

/-- The `count` bytes of region `r` from offset `off` on. -/
def region_bytes (r : Region) (off count : Nat) : List Nat :=
  (List.range count).map fun i => r (off + i)

/-- The region occupied by an array whose `i`-th element is `a i`, each element
`size` bytes wide. -/
def region_of_array (size : Nat) (a : Nat → Nat) : Region :=
  fun off => a (off / size) / 256 ^ (off % size) % 256

/-- The region occupied by one object of `size` bytes holding `v`, followed by
bytes `after`. -/
def region_of_object (size v : Nat) (after : Region) : Region :=
  fun off => if off < size then v / 256 ^ off % 256 else after (off - size)

/-- The region that starts with the given bytes and is zero afterwards. -/
def region_of_bytes (bs : List Nat) : Region :=
  fun off => bs.getD off 0

/-- The first `count` elements, each `size` bytes wide, of a buffer. -/
def buffer_elements (size count : Nat) (buf : List Nat) : List Nat :=
  (List.range count).map fun i => object_value ((buf.drop (i * size)).take size)

/-- A stdio stream: the file's bytes, the read position, and how many more
bytes the medium accepts before a write comes up short. -/
structure FILE where
  bytes : List Nat
  pos : Nat
  room : Nat
  deriving DecidableEq, Repr

/-- `fwrite(ptr, size, elems, fp)`: appends as many of the `size * elems`
bytes at `ptr` as the medium accepts and returns the number of whole elements
written. -/
def fwrite (mem : Region) (ptr size elems : Nat) (fp : FILE) : Nat × FILE :=
  let written := min (size * elems % SIZE_T_RANGE) fp.room
  (written / size,
   { fp with bytes := fp.bytes ++ region_bytes mem ptr written,
             room := fp.room - written })

/-- `fread(var, size, count, fp)`: copies up to `size * count` bytes from the
read position over the start of the buffer `var`, advances the position and
returns the number of whole elements read. -/
def fread (var : List Nat) (size count : Nat) (fp : FILE) : Nat × List Nat × FILE :=
  let got := (fp.bytes.drop fp.pos).take (size * count % SIZE_T_RANGE)
  (got.length / size, got ++ var.drop got.length, { fp with pos := fp.pos + got.length })

/-- `memread`: like `fread` but from a region of memory, at cursor `array`.
It copies `size * count` bytes unconditionally, advances the cursor and returns
`count`. -/
def memread (size count : Nat) (mem : Region) (array : Nat) : Nat × List Nat × Nat :=
  let bytes := size * count % SIZE_T_RANGE
  (count, region_bytes mem array bytes, array + bytes)

/-- Loop of `write_variable_to_file`: `while (counter++ < count)` with an
`unsigned int` counter, one `fwrite` of a single element per turn. -/
def write_variable_to_file_loop (var : Region) (size count : Nat) :
    Nat → Nat → Nat → FILE → Except Stop (Status × FILE)
  | 0, _, _, _ => .error .out_of_steps
  | steps + 1, counter, ptr, fp =>
    if counter < count then
      let r := fwrite var ptr size 1 fp
      if r.1 ≠ 1 then .ok (.FILE_IO_ERROR, r.2)
      else write_variable_to_file_loop var size count steps ((counter + 1) % UINT_RANGE)
             (ptr + size) r.2
    else .ok (.SUCCESS, fp)

/-- `write_variable_to_file(var, size, count, fp)`. -/
def write_variable_to_file (steps : Nat) (var : Region) (size count : Nat) (fp : FILE) :
    Except Stop (Status × FILE) :=
  write_variable_to_file_loop var size count steps 0 0 fp

/-- `read_variable_from_file(var, size, count, fp)`: a short read is reported
as `FILE_IO_ERROR`. -/
def read_variable_from_file (var : List Nat) (size count : Nat) (fp : FILE) :
    Status × List Nat × FILE :=
  let r := fread var size count fp
  if r.1 ≠ count then (.FILE_IO_ERROR, r.2) else (.SUCCESS, r.2)

/-- The allocator: which request sizes are refused, and what a fresh block
holds before it is written. -/
structure Heap where
  refuses : Nat → Bool
  fresh : Region

/-- `malloc(size)`: `none` is the null pointer. -/
def malloc (heap : Heap) (size : Nat) : Option (List Nat) :=
  if heap.refuses size then none else some (region_bytes heap.fresh 0 size)

/-- `malloc_read_variable_from_file(var, size, count, fp)`. -/
def malloc_read_variable_from_file (heap : Heap) (size count : Nat) (fp : FILE) :
    Status × Option (List Nat) × FILE :=
  match malloc heap (count * size % SIZE_T_RANGE) with
  | none => (.MALLOC_FAILED, none, fp)
  | some var =>
    let r := read_variable_from_file var size count fp
    (r.1, some r.2.1, r.2.2)

/-- `read_variable_from_array(var, size, count, array)`. -/
def read_variable_from_array (size count : Nat) (mem : Region) (array : Nat) :
    Status × List Nat × Nat :=
  let r := memread size count mem array
  if r.1 ≠ count then (.FILE_IO_ERROR, r.2) else (.SUCCESS, r.2)

/-- `malloc_read_variable_from_array(var, size, count, array)`. -/
def malloc_read_variable_from_array (heap : Heap) (size count : Nat) (mem : Region)
    (array : Nat) : Status × Option (List Nat) × Nat :=
  match malloc heap (count * size % SIZE_T_RANGE) with
  | none => (.MALLOC_FAILED, none, array)
  | some _ =>
    let r := read_variable_from_array size count mem array
    (r.1, some r.2.1, r.2.2)

/-- The file system as `save_vardump` meets it: whether `fopen` succeeds, how
many bytes the medium accepts, and whether `fclose` succeeds. -/
structure Medium where
  opens : Bool
  room : Nat
  closes : Bool

/-- The argument `outlier_scores` of `save_vardump`: a pointer object owned by
the caller.  `address` is the value of the pointer, `pointee` the doubles
stored at that address, and `neighbours` the bytes that follow the pointer
object itself in the caller's memory. -/
structure ScoresPointer where
  address : Nat
  pointee : Nat → Nat
  neighbours : Region

/-- The region that starts at the pointer object: what `&outlier_scores`
points at. -/
def ScoresPointer.address_of (p : ScoresPointer) : Region :=
  region_of_object 8 p.address p.neighbours

/-- Loop of `save_vardump` that widens the outlier indices:
`for (i = 0; i < N; i++) outliers_lu[i] = outliers[i];` with `unsigned int i`. -/
def widen_outliers_loop (outliers : Nat → Nat) (N : Nat) :
    Nat → Nat → (Nat → Nat) → Except Stop (Nat → Nat)
  | 0, _, _ => .error .out_of_steps
  | steps + 1, i, outliers_lu =>
    if i < N then
      widen_outliers_loop outliers N steps ((i + 1) % UINT_RANGE)
        (Function.update outliers_lu i (outliers i % UINT_RANGE))
    else .ok outliers_lu

/-- `save_vardump`.  The statuses of the individual writes are discarded, as
in the source; the result is the returned status and, when the file was
opened, the bytes of the file. -/
def save_vardump (steps : Nat) (fs : Medium)
    (num_vectors vector_dims : Nat) (data : Nat → Nat) (k N block_size : Nat)
    (outliers : Nat → Nat) (outlier_scores : ScoresPointer) :
    Except Stop (Status × Option (List Nat)) :=
  if !fs.opens then .ok (.FILE_NOT_FOUND, none) else do
    let fp : FILE := { bytes := [], pos := 0, room := fs.room }
    /- num_vectors -/
    let (_, fp) ← write_variable_to_file steps
      (region_of_object sizeof_size_t num_vectors fun _ => 0) sizeof_size_t 1 fp
    /- vector_dims -/
    let (_, fp) ← write_variable_to_file steps
      (region_of_object sizeof_size_t vector_dims fun _ => 0) sizeof_size_t 1 fp
    /- data -/
    let (_, fp) ← write_variable_to_file steps
      (region_of_array sizeof_double data) sizeof_double
      (num_vectors * vector_dims % SIZE_T_RANGE) fp
    /- k -/
    let (_, fp) ← write_variable_to_file steps
      (region_of_object sizeof_size_t k fun _ => 0) sizeof_size_t 1 fp
    /- N -/
    let (_, fp) ← write_variable_to_file steps
      (region_of_object sizeof_size_t N fun _ => 0) sizeof_size_t 1 fp
    /- block_size -/
    let (_, fp) ← write_variable_to_file steps
      (region_of_object sizeof_size_t block_size fun _ => 0) sizeof_size_t 1 fp
    /- outliers -/
    let outliers_lu ← widen_outliers_loop outliers N steps 0 fun _ => 0
    let (_, fp) ← write_variable_to_file steps
      (region_of_array sizeof_long_unsigned_int outliers_lu) sizeof_long_unsigned_int N fp
    /- outlier_scores: the source passes `&outlier_scores` -/
    let (_, fp) ← write_variable_to_file steps
      outlier_scores.address_of sizeof_double N fp
    if !fs.closes then .ok (.FILE_IO_ERROR, some fp.bytes)
    else .ok (.SUCCESS, some fp.bytes)

/-- The variables a loader fills in: the caller's `num_vectors`, `vector_dims`,
`data`, `k`, `N`, `block_size`, `outliers` and `outlier_scores`.  A pointer is
`none` when null and otherwise carries the elements of the block it points at
(8-byte elements for `data` and `outlier_scores`, 4-byte elements for
`outliers`). -/
structure Vardump where
  num_vectors : Nat
  vector_dims : Nat
  data : Option (List Nat)
  k : Nat
  N : Nat
  block_size : Nat
  outliers : Option (List Nat)
  outlier_scores : Option (List Nat)
  deriving DecidableEq, Repr

/-- Loop of the loaders that narrows the outlier indices:
`for (i = 0; i < N; i++) outliers[i] = outliers_lu[i];` with `unsigned int i`. -/
def narrow_outliers_loop (outliers_lu : Option (List Nat)) (N : Nat) :
    Nat → Nat → List Nat → Except Stop (List Nat)
  | 0, _, _ => .error .out_of_steps
  | steps + 1, i, outliers =>
    if i < N then
      match outliers_lu with
      | none => .error .null_dereference
      | some lu =>
        narrow_outliers_loop outliers_lu N steps ((i + 1) % UINT_RANGE)
          (outliers.set i (lu.getD i 0 % UINT_RANGE))
    else .ok outliers

/-- The elements of a block seen as an array of `size`-byte objects. -/
def block_elements (size : Nat) (buf : List Nat) : List Nat :=
  buffer_elements size (buf.length / size) buf

/-- `read_vardump_from_file`.  `file` is the content of the named file, `none`
when it cannot be opened; `closes` says whether `fclose` succeeds; `v` holds
the caller's variables on entry.  The statuses of the individual reads are
discarded, as in the source. -/
def read_vardump_from_file (steps : Nat) (heap : Heap) (file : Option (List Nat))
    (closes : Bool) (v : Vardump) : Except Stop (Status × Vardump) :=
  match file with
  | none => .ok (.FILE_NOT_FOUND, v)
  | some content => do
    let fp : FILE := { bytes := content, pos := 0, room := 0 }
    /- num_vectors -/
    let r := read_variable_from_file (object_bytes sizeof_size_t v.num_vectors) sizeof_size_t 1 fp
    let v := { v with num_vectors := object_value r.2.1 }
    let fp := r.2.2
    /- vector_dims -/
    let r := read_variable_from_file (object_bytes sizeof_size_t v.vector_dims) sizeof_size_t 1 fp
    let v := { v with vector_dims := object_value r.2.1 }
    let fp := r.2.2
    /- data -/
    let r := malloc_read_variable_from_file heap sizeof_double
      (v.num_vectors * v.vector_dims % SIZE_T_RANGE) fp
    let v := { v with data := r.2.1.map (block_elements sizeof_double) }
    let fp := r.2.2
    /- k -/
    let r := read_variable_from_file (object_bytes sizeof_size_t v.k) sizeof_size_t 1 fp
    let v := { v with k := object_value r.2.1 }
    let fp := r.2.2
    /- N -/
    let r := read_variable_from_file (object_bytes sizeof_size_t v.N) sizeof_size_t 1 fp
    let v := { v with N := object_value r.2.1 }
    let fp := r.2.2
    /- block_size -/
    let r := read_variable_from_file (object_bytes sizeof_size_t v.block_size) sizeof_size_t 1 fp
    let v := { v with block_size := object_value r.2.1 }
    let fp := r.2.2
    /- outliers -/
    let r := malloc_read_variable_from_file heap sizeof_long_unsigned_int v.N fp
    let outliers_lu := r.2.1.map (block_elements sizeof_long_unsigned_int)
    let fp := r.2.2
    match malloc heap (v.N * sizeof_long_unsigned_int % SIZE_T_RANGE) with
    | none => .ok (.MALLOC_FAILED, { v with outliers := none })
    | some block =>
      let outliers ← narrow_outliers_loop outliers_lu v.N steps 0
        (block_elements sizeof_unsigned_int block)
      let v := { v with outliers := some outliers }
      /- outlier_scores -/
      let r := malloc_read_variable_from_file heap sizeof_double v.N fp
      let v := { v with outlier_scores := r.2.1.map (block_elements sizeof_double) }
      if !closes then
        .ok (.FILE_IO_ERROR, v)
      else .ok (.SUCCESS, v)

/-- `read_vardump_from_array`.  `mem` is the memory the cursor `*array` points
into and `array` the cursor on entry; the cursor on return is part of the
result. -/
def read_vardump_from_array (steps : Nat) (heap : Heap) (mem : Region) (array : Nat)
    (v : Vardump) : Except Stop (Status × Vardump × Nat) := do
  /- num_vectors -/
  let r := read_variable_from_array sizeof_size_t 1 mem array
  let v := { v with num_vectors := object_value r.2.1 }
  let array := r.2.2
  /- vector_dims -/
  let r := read_variable_from_array sizeof_size_t 1 mem array
  let v := { v with vector_dims := object_value r.2.1 }
  let array := r.2.2
  /- data -/
  let r := malloc_read_variable_from_array heap sizeof_double
    (v.num_vectors * v.vector_dims % SIZE_T_RANGE) mem array
  let v := { v with data := r.2.1.map (block_elements sizeof_double) }
  let array := r.2.2
  /- k -/
  let r := read_variable_from_array sizeof_size_t 1 mem array
  let v := { v with k := object_value r.2.1 }
  let array := r.2.2
  /- N -/
  let r := read_variable_from_array sizeof_size_t 1 mem array
  let v := { v with N := object_value r.2.1 }
  let array := r.2.2
  /- block_size -/
  let r := read_variable_from_array sizeof_size_t 1 mem array
  let v := { v with block_size := object_value r.2.1 }
  let array := r.2.2
  /- outliers -/
  let r := malloc_read_variable_from_array heap sizeof_long_unsigned_int v.N mem array
  let outliers_lu := r.2.1.map (block_elements sizeof_long_unsigned_int)
  let array := r.2.2
  match malloc heap (v.N * sizeof_long_unsigned_int % SIZE_T_RANGE) with
  | none => .ok (.MALLOC_FAILED, { v with outliers := none }, array)
  | some block =>
    let outliers ← narrow_outliers_loop outliers_lu v.N steps 0
      (block_elements sizeof_unsigned_int block)
    let v := { v with outliers := some outliers }
    /- outlier_scores -/
    let r := malloc_read_variable_from_array heap sizeof_double v.N mem array
    let v := { v with outlier_scores := r.2.1.map (block_elements sizeof_double) }
    .ok (.SUCCESS, v, r.2.2)

/-! ## Part 2: `main.c`

The definitions of this part live in the namespace `MainC`, since the name
`main` cannot be used at the top level. -/

namespace MainC

/-- Modelled from the spec: the status of a bring-up or transfer operation
that succeeded.  `XST_SUCCESS` is declared in the board support package
(`xstatus.h`), which is not among the sources; its value there is 0. -/
def XST_SUCCESS : Int := 0

/-- Modelled from the spec: the status of a bring-up or transfer operation
that failed.  `XST_FAILURE` is declared in the board support package
(`xstatus.h`), which is not among the sources; its value there is 1. -/
def XST_FAILURE : Int := 1

/-- `const int SIZE = 256;` -/
def SIZE : Nat := 256

/-- The two DMA engines, `AxiDmaA` (device `XPAR_AXI_DMA_0_DEVICE_ID`) and
`AxiDmaB` (device `XPAR_AXI_DMA_1_DEVICE_ID`). -/
inductive Channel where
  | AxiDmaA
  | AxiDmaB
  deriving DecidableEq, Repr

/-- Direction argument of the DMA calls. -/
inductive Direction where
  | XAXIDMA_DMA_TO_DEVICE
  | XAXIDMA_DEVICE_TO_DMA
  deriving DecidableEq, Repr

/-- The arrays `A` and `B` of `main`, as buffer addresses. -/
inductive Buffer where
  | A
  | B
  deriving DecidableEq, Repr

/-- A `double`: an IEEE 754 binary64 number.  `finite negative m e` stands for
`(-1)^negative * m * 2^e`; the numbers the operations below produce have
`m < 2^53`, `-1074 ≤ e ≤ 971`, and `e = -1074` whenever `m < 2^52`, so that
every number has one form (zero is `m = 0`, `e = -1074`, with a sign).  All
NaNs are identified. -/
inductive Double where
  | finite (negative : Bool) (significand : Nat) (exponent : Int)
  | infinity (negative : Bool)
  | nan
  deriving DecidableEq, Repr

/-- Loop of `bit_length`: halve until nothing is left. -/
def bit_length_loop : Nat → Nat → Nat
  | 0, _ => 0
  | fuel + 1, n => if n = 0 then 0 else bit_length_loop fuel (n / 2) + 1

/-- The number of binary digits of `n`. -/
def bit_length (n : Nat) : Nat := bit_length_loop n n

/-- The double with significand `q ≤ 2^53` at exponent `e`: a significand
of `2^53` is renormalised, and an exponent above 971 overflows to infinity. -/
def Double.pack (negative : Bool) (q : Nat) (e : Int) : Double :=
  if q = 2 ^ 53 then
    if 971 < e + 1 then .infinity negative else .finite negative (2 ^ 52) (e + 1)
  else if 971 < e then .infinity negative
  else .finite negative q e

/-- The double nearest to `(-1)^negative * m * 2^e`, ties to even: the
rounding applied to the exact result of every arithmetic operation. -/
def Double.round (negative : Bool) (m : Nat) (e : Int) : Double :=
  if m = 0 then .finite negative 0 (-1074)
  else
    let target : Int := max (e + (bit_length m : Int) - 53) (-1074)
    if target ≤ e then Double.pack negative (m * 2 ^ (e - target).toNat) target
    else
      let shift := (target - e).toNat
      let q := m / 2 ^ shift
      let r := m % 2 ^ shift
      let half := 2 ^ (shift - 1)
      Double.pack negative (if half < r ∨ (r = half ∧ q % 2 = 1) then q + 1 else q) target

/-- Unary minus. -/
def Double.neg : Double → Double
  | .finite s m e => .finite (!s) m e
  | .infinity s => .infinity (!s)
  | .nan => .nan

/-- The integer `(-1)^negative * m`. -/
def Double.signed (negative : Bool) (m : Nat) : Int :=
  if negative then -(m : Int) else (m : Int)

/-- The C operator `+` on doubles.  Infinities of opposite sign give NaN; a
sum of two zeros is `-0` only when both are `-0`; adding a zero to a number
that is not zero gives that number; otherwise the result is the exact sum,
rounded, and an exact sum of zero is `+0`. -/
def Double.add : Double → Double → Double
  | .nan, _ => .nan
  | _, .nan => .nan
  | .infinity s, .infinity t => if s = t then .infinity s else .nan
  | .infinity s, .finite _ _ _ => .infinity s
  | .finite _ _ _, .infinity t => .infinity t
  | .finite s m e, .finite t n f =>
    if m = 0 ∧ n = 0 then .finite (s && t) 0 (-1074)
    else if n = 0 then .finite s m e
    else if m = 0 then .finite t n f
    else
      let low := min e f
      let sum := Double.signed s (m * 2 ^ (e - low).toNat)
        + Double.signed t (n * 2 ^ (f - low).toNat)
      if sum = 0 then .finite false 0 (-1074)
      else Double.round (decide (sum < 0)) sum.natAbs low

/-- The C operator `-` on doubles: `x - y` is `x + (-y)`. -/
def Double.sub (x y : Double) : Double := x.add y.neg

/-- The C operator `*` on doubles: the exact product, rounded; zero times
infinity is NaN. -/
def Double.mul : Double → Double → Double
  | .nan, _ => .nan
  | _, .nan => .nan
  | .infinity s, .infinity t => .infinity (xor s t)
  | .infinity s, .finite t n _ => if n = 0 then .nan else .infinity (xor s t)
  | .finite s m _, .infinity t => if m = 0 then .nan else .infinity (xor s t)
  | .finite s m e, .finite t n f => Double.round (xor s t) (m * n) (e + f)

/-- The conversion `(double)n` of an integer. -/
def Double.ofInt (n : Int) : Double := Double.round (decide (n < 0)) n.natAbs 0

/-- The real number a double stands for, `none` for infinities and NaN. -/
def Double.toRat : Double → Option ℚ
  | .finite s m e => some ((if s then -1 else 1) * (m : ℚ) * (2 : ℚ) ^ e)
  | _ => none

/-- Texts that the program prints with `xil_printf`. -/
inductive Message where
  | example_of_autoesl_and_dma_transfers
  | example_setup_failed
  | interrupt_setup_failed
  | interrupt_configuration_lookup_failed
  | error_looking_for_axi_dma_config
  | error_initializing_dma
  | error_dma_configured_in_sg_mode
  | error_failed_to_transfer_a
  | error_failed_to_transfer_b
  | waiting_for_core_to_finish
  | comparing_results
  | hardware_software (result_hw result_sw : Double)
  deriving DecidableEq, Repr

/-- Effects of the program, in the order in which they happen: calls into the
drivers and the platform, and writes of the shared flag `ResultExample`. -/
inductive Call where
  | init_platform
  | cleanup_platform
  | xil_printf (text : Message)
  | XDistance_squared_Initialize
  | XDistance_squared_InterruptEnable (mask : Nat)
  | XDistance_squared_InterruptGlobalEnable
  | XDistance_squared_Start
  | XDistance_squared_InterruptGlobalDisable
  | XDistance_squared_InterruptDisable (mask : Nat)
  | XDistance_squared_InterruptClear (mask : Nat)
  | XDistance_squared_GetSum
  | write_ResultExample (value : Int)
  | XScuGic_LookupConfig
  | XScuGic_CfgInitialize
  | XScuGic_SelfTest
  | Xil_ExceptionInit
  | Xil_ExceptionRegisterHandler
  | Xil_ExceptionEnable
  | XScuGic_Connect
  | XScuGic_Enable
  | XAxiDma_LookupConfig (dma : Channel)
  | XAxiDma_CfgInitialize (dma : Channel)
  | XAxiDma_HasSg (dma : Channel)
  | XAxiDma_IntrDisable (dma : Channel) (direction : Direction)
  | Xil_DCacheFlushRange (buffer : Buffer) (length : Nat)
  | XAxiDma_SimpleTransfer (dma : Channel) (buffer : Buffer) (length : Nat)
      (direction : Direction)
  deriving DecidableEq, Repr

/-- The globals of `main.c` and the state of the accelerator they drive:
`RunExample`, `ResultExample`, the device's global interrupt gate, its local
interrupt-enable register, its running flag, whether the handler's interrupt
line is enabled at the interrupt controller, and the effects so far. -/
structure Machine where
  RunExample : Int
  ResultExample : Int
  global_interrupt_enable : Bool
  interrupt_enable : Nat
  running : Bool
  line_enabled : Bool
  trace : List Call
  deriving DecidableEq, Repr

/-- What the hardware and the board support package answer: the statuses of the
initialisation, lookup, self-test, connect and transfer calls, the
scatter-gather capability of each DMA engine, the sum held by the accelerator,
and the number of unsuccessful polls of `main` after which the completion
interrupt is raised (`none`: never). -/
structure Platform where
  XDistance_squared_Initialize : Int
  XScuGic_LookupConfig : Bool
  XScuGic_CfgInitialize : Int
  XScuGic_SelfTest : Int
  XScuGic_Connect : Int
  XAxiDma_LookupConfig : Channel → Bool
  XAxiDma_CfgInitialize : Channel → Int
  XAxiDma_HasSg : Channel → Bool
  XAxiDma_SimpleTransfer : Channel → Int
  XDistance_squared_GetSum : Double
  interrupt_after : Option Nat

/-- Records one effect. -/
def Machine.call (m : Machine) (c : Call) : Machine :=
  { m with trace := m.trace ++ [c] }

/-- The effects that happened between state `m` and the later state `m2`. -/
def effects_since (m m2 : Machine) : List Call :=
  m2.trace.drop m.trace.length

/-- Modelled from the spec: `XDistance_squared_InterruptEnable` of the device
driver `xdistance_squared.c`, which is not among the sources; a local
interrupt-enable register write that sets the bits of `mask`. -/
def XDistance_squared_InterruptEnable (mask : Nat) (m : Machine) : Machine :=
  { m with interrupt_enable := (m.interrupt_enable % UINT_RANGE) ||| (mask % UINT_RANGE),
           trace := m.trace ++ [.XDistance_squared_InterruptEnable mask] }

/-- Modelled from the spec: `XDistance_squared_InterruptDisable` of the device
driver, not among the sources; a local interrupt-enable register write that
clears the bits of `mask`. -/
def XDistance_squared_InterruptDisable (mask : Nat) (m : Machine) : Machine :=
  { m with interrupt_enable :=
             (m.interrupt_enable % UINT_RANGE) &&&
               ((UINT_RANGE - 1) ^^^ (mask % UINT_RANGE)),
           trace := m.trace ++ [.XDistance_squared_InterruptDisable mask] }

/-- Modelled from the spec: `XDistance_squared_InterruptGlobalEnable` of the
device driver, not among the sources; sets the one bit that gates all local
interrupts of the device. -/
def XDistance_squared_InterruptGlobalEnable (m : Machine) : Machine :=
  { m with global_interrupt_enable := true,
           trace := m.trace ++ [.XDistance_squared_InterruptGlobalEnable] }

/-- Modelled from the spec: `XDistance_squared_InterruptGlobalDisable` of the
device driver, not among the sources; clears the gate bit. -/
def XDistance_squared_InterruptGlobalDisable (m : Machine) : Machine :=
  { m with global_interrupt_enable := false,
           trace := m.trace ++ [.XDistance_squared_InterruptGlobalDisable] }

/-- Modelled from the spec: `XDistance_squared_InterruptClear` of the device
driver, not among the sources; acknowledges the pending interrupt conditions
of `mask`. -/
def XDistance_squared_InterruptClear (mask : Nat) (m : Machine) : Machine :=
  m.call (.XDistance_squared_InterruptClear mask)

/-- Modelled from the spec: `XDistance_squared_Start` of the device driver, not
among the sources; writes the start bit. -/
def XDistance_squared_Start (m : Machine) : Machine :=
  { m with running := true, trace := m.trace ++ [.XDistance_squared_Start] }

/-- `ExampleSetup`. -/
def ExampleSetup (p : Platform) (m : Machine) : Int × Machine :=
  (p.XDistance_squared_Initialize, m.call .XDistance_squared_Initialize)

/-- `ExampleStart`. -/
def ExampleStart (m : Machine) : Machine :=
  let m := XDistance_squared_InterruptEnable 1 m
  let m := XDistance_squared_InterruptGlobalEnable m
  XDistance_squared_Start m

/-- `ExampleIsr`. -/
def ExampleIsr (m : Machine) : Machine :=
  /- Disable the global interrupt -/
  let m := XDistance_squared_InterruptGlobalDisable m
  /- Disable the local interrupt -/
  let m := XDistance_squared_InterruptDisable 0xffffffff m
  /- clear the local interrupt -/
  let m := XDistance_squared_InterruptClear 1 m
  let m := { m with ResultExample := 1, trace := m.trace ++ [.write_ResultExample 1] }
  /- restart the core if it should run again -/
  if m.RunExample ≠ 0 then ExampleStart m else m

/-- `SetupInterrupt`. -/
def SetupInterrupt (p : Platform) (m : Machine) : Int × Machine :=
  let m := m.call .XScuGic_LookupConfig
  if !p.XScuGic_LookupConfig then
    (XST_FAILURE, m.call (.xil_printf .interrupt_configuration_lookup_failed))
  else
    let m := m.call .XScuGic_CfgInitialize
    let result := p.XScuGic_CfgInitialize
    if result ≠ XST_SUCCESS then (result, m) else
    /- self test -/
    let m := m.call .XScuGic_SelfTest
    let result := p.XScuGic_SelfTest
    if result ≠ XST_SUCCESS then (result, m) else
    /- Initialize, register and enable the exception handler -/
    let m := m.call .Xil_ExceptionInit
    let m := m.call .Xil_ExceptionRegisterHandler
    let m := m.call .Xil_ExceptionEnable
    /- Connect the ISR to the exception table -/
    let m := m.call .XScuGic_Connect
    let result := p.XScuGic_Connect
    if result ≠ XST_SUCCESS then (result, m) else
    let m := { m with line_enabled := true, trace := m.trace ++ [.XScuGic_Enable] }
    (XST_SUCCESS, m)

/-- `init_dma`. -/
def init_dma (p : Platform) (m : Machine) : Int × Machine :=
  let m := m.call (.XAxiDma_LookupConfig .AxiDmaA)
  if !p.XAxiDma_LookupConfig .AxiDmaA then
    (XST_FAILURE, m.call (.xil_printf .error_looking_for_axi_dma_config))
  else
    let m := m.call (.XAxiDma_LookupConfig .AxiDmaB)
    if !p.XAxiDma_LookupConfig .AxiDmaB then
      (XST_FAILURE, m.call (.xil_printf .error_looking_for_axi_dma_config))
    else
      let m := m.call (.XAxiDma_CfgInitialize .AxiDmaA)
      let status := p.XAxiDma_CfgInitialize .AxiDmaA
      if status ≠ XST_SUCCESS then
        (XST_FAILURE, m.call (.xil_printf .error_initializing_dma))
      else
        let m := m.call (.XAxiDma_CfgInitialize .AxiDmaB)
        let status := p.XAxiDma_CfgInitialize .AxiDmaB
        if status ≠ XST_SUCCESS then
          (XST_FAILURE, m.call (.xil_printf .error_initializing_dma))
        else
          /- check for scatter gather mode -/
          let m := m.call (.XAxiDma_HasSg .AxiDmaA)
          if p.XAxiDma_HasSg .AxiDmaA then
            (XST_FAILURE, m.call (.xil_printf .error_dma_configured_in_sg_mode))
          else
            let m := m.call (.XAxiDma_HasSg .AxiDmaB)
            if p.XAxiDma_HasSg .AxiDmaB then
              (XST_FAILURE, m.call (.xil_printf .error_dma_configured_in_sg_mode))
            else
              /- disable the interrupts -/
              let m := m.call (.XAxiDma_IntrDisable .AxiDmaA .XAXIDMA_DEVICE_TO_DMA)
              let m := m.call (.XAxiDma_IntrDisable .AxiDmaA .XAXIDMA_DMA_TO_DEVICE)
              let m := m.call (.XAxiDma_IntrDisable .AxiDmaB .XAXIDMA_DEVICE_TO_DMA)
              let m := m.call (.XAxiDma_IntrDisable .AxiDmaB .XAXIDMA_DMA_TO_DEVICE)
              (XST_SUCCESS, m)

/-- Loop of `distance_squared_sw`: `todo` turns remain, `dim` is the loop
index and `result` the accumulator. -/
def distance_squared_sw_loop (vector1 vector2 : Nat → Double) : Nat → Nat → Double → Double
  | 0, _, result => result
  | todo + 1, dim, result =>
    let vector1_data := vector1 dim
    let vector2_data := vector2 dim
    let diff := vector1_data.sub vector2_data
    let diff_squared := diff.mul diff
    distance_squared_sw_loop vector1 vector2 todo (dim + 1) (result.add diff_squared)

/-- `distance_squared_sw`: the loop runs `dim` from 0 up to `SIZE`, starting
from `double result = 0`. -/
def distance_squared_sw (vector1 vector2 : Nat → Double) : Double :=
  distance_squared_sw_loop vector1 vector2 SIZE 0 (Double.ofInt 0)

/-- The array `A` as `main` fills it: `A[i] = (double)i`. -/
def main_A (i : Nat) : Double := Double.ofInt (i : Int)

/-- The array `B` as `main` fills it: `B[i] = (double)(2*i)`. -/
def main_B (i : Nat) : Double := Double.ofInt ((2 * i : Nat) : Int)

/-- The local `dma_size` of `main`: `SIZE * sizeof(unsigned int)`. -/
def dma_size : Nat := SIZE * sizeof_unsigned_int

/-- The completion interrupt reaches the processor when its line is enabled at
the interrupt controller, the device's global gate is open and the local
source (bit 0) is enabled. -/
def interrupt_deliverable (m : Machine) : Bool :=
  m.line_enabled && m.global_interrupt_enable && m.interrupt_enable % 2 == 1

/-- What the hardware does just before the poll numbered `polls`: at the poll
numbered `p.interrupt_after` the device finishes and, if the interrupt is
deliverable, the handler `ExampleIsr` runs; at any other poll nothing
happens. -/
def completion_interrupt (p : Platform) (polls : Nat) (m : Machine) : Machine :=
  if p.interrupt_after = some polls then
    if interrupt_deliverable m then ExampleIsr { m with running := false }
    else { m with running := false }
  else m

/-- The wait of `main`: `while(!ResultExample) xil_printf(...)`, with the
handler preempting it as `completion_interrupt` says.  `none` when the flag is
still clear after `steps` polls. -/
def wait_for_core (p : Platform) : Nat → Nat → Machine → Option Machine
  | 0, _, _ => none
  | steps + 1, polls, m =>
    let m := completion_interrupt p polls m
    if m.ResultExample ≠ 0 then some m
    else wait_for_core p steps (polls + 1) (m.call (.xil_printf .waiting_for_core_to_finish))

/-- `main`.  The result is the returned value, `none` when `main` is still
waiting for the core after `steps` polls, and the final state. -/
def main (p : Platform) (steps : Nat) (m : Machine) : Option Int × Machine :=
  let m := m.call .init_platform
  let m := m.call (.xil_printf .example_of_autoesl_and_dma_transfers)
  /- Setup the matrix mult -/
  let r := ExampleSetup p m
  let m := if r.1 ≠ XST_SUCCESS then r.2.call (.xil_printf .example_setup_failed) else r.2
  /- Setup the interrupt -/
  let r := SetupInterrupt p m
  let m := if r.1 ≠ XST_SUCCESS then r.2.call (.xil_printf .interrupt_setup_failed) else r.2
  let m := ExampleStart m
  let r := init_dma p m
  let m := r.2
  /- flush the cache -/
  let m := m.call (.Xil_DCacheFlushRange .A dma_size)
  let m := m.call (.Xil_DCacheFlushRange .B dma_size)
  /- transfer to hw -/
  let m := m.call (.XAxiDma_SimpleTransfer .AxiDmaA .A dma_size .XAXIDMA_DMA_TO_DEVICE)
  if p.XAxiDma_SimpleTransfer .AxiDmaA ≠ XST_SUCCESS then
    (some XST_FAILURE, m.call (.xil_printf .error_failed_to_transfer_a))
  else
    let m := m.call (.XAxiDma_SimpleTransfer .AxiDmaB .B dma_size .XAXIDMA_DMA_TO_DEVICE)
    if p.XAxiDma_SimpleTransfer .AxiDmaB ≠ XST_SUCCESS then
      (some XST_FAILURE, m.call (.xil_printf .error_failed_to_transfer_b))
    else
      match wait_for_core p steps 0 m with
      | none => (none, m)
      | some m =>
        let m := m.call .XDistance_squared_GetSum
        let result_hw := p.XDistance_squared_GetSum
        /- call the software version of the function -/
        let result_sw := distance_squared_sw main_A main_B
        let m := m.call (.xil_printf .comparing_results)
        let m := m.call (.xil_printf (.hardware_software result_hw result_sw))
        let m := m.call .cleanup_platform
        (some 0, m)

end MainC

/-! ## Concrete inputs -/

deriving instance DecidableEq for Except

/-- The data of the scenario: the doubles 1, 2, 3, 4, 5, 6, by their IEEE 754
bit patterns. -/
def scenario_data (i : Nat) : Nat :=
  [0x3FF0000000000000, 0x4000000000000000, 0x4008000000000000,
   0x4010000000000000, 0x4014000000000000, 0x4018000000000000].getD i 0

/-- The outlier indices of the scenario: `[1]`. -/
def scenario_outliers (i : Nat) : Nat :=
  [1].getD i 0

/-- The outlier scores of the scenario: the array `[2.5]` (bit pattern
`0x4004000000000000`), held at address `0x7ffd12345678`; zero bytes follow the
pointer object. -/
def scenario_scores : ScoresPointer where
  address := 0x7ffd12345678
  pointee := fun i => [0x4004000000000000].getD i 0
  neighbours := fun _ => 0

/-- A medium on which every call succeeds. -/
def scenario_medium : Medium where
  opens := true
  room := 4096
  closes := true

/-- An allocator that never refuses and hands out zeroed blocks. -/
def scenario_heap : Heap where
  refuses := fun _ => false
  fresh := fun _ => 0

/-- The caller's variables before a load. -/
def blank : Vardump where
  num_vectors := 0
  vector_dims := 0
  data := none
  k := 0
  N := 0
  block_size := 0
  outliers := none
  outlier_scores := none

/-- The 104 bytes that `save_vardump` writes for the scenario, as thirteen
8-byte little-endian words: 2, 3, the six doubles, 1, 1, 1, the index 1, and
last the word `0x7ffd12345678`, whose bytes are 78 56 34 12 fd 7f 00 00. -/
def scenario_file : List Nat :=
  ([2, 3,
    0x3FF0000000000000, 0x4000000000000000, 0x4008000000000000,
    0x4010000000000000, 0x4014000000000000, 0x4018000000000000,
    1, 1, 1,
    1,
    0x7ffd12345678].map (object_bytes 8)).flatten

/-- The 88 bytes that `save_vardump` writes for the scenario with `N = 0`:
no index and no score. -/
def scenario_file_no_outliers : List Nat :=
  ([2, 3,
    0x3FF0000000000000, 0x4000000000000000, 0x4008000000000000,
    0x4010000000000000, 0x4014000000000000, 0x4018000000000000,
    1, 0, 1].map (object_bytes 8)).flatten

/-- What both loaders return for `scenario_file_no_outliers`. -/
def scenario_loaded_no_outliers : Vardump where
  num_vectors := 2
  vector_dims := 3
  data := some [0x3FF0000000000000, 0x4000000000000000, 0x4008000000000000,
    0x4010000000000000, 0x4014000000000000, 0x4018000000000000]
  k := 1
  N := 0
  block_size := 1
  outliers := some []
  outlier_scores := some []

/-- What both loaders return for `scenario_file`: every field of the scenario
except the score, in whose place stands the address `0x7ffd12345678`. -/
def scenario_loaded : Vardump where
  num_vectors := 2
  vector_dims := 3
  data := some [0x3FF0000000000000, 0x4000000000000000, 0x4008000000000000,
    0x4010000000000000, 0x4014000000000000, 0x4018000000000000]
  k := 1
  N := 1
  block_size := 1
  outliers := some [1, 0]
  outlier_scores := some [0x7ffd12345678]

/-- What `read_vardump_from_file` returns for `scenario_file` cut after 96
bytes, that is, without its last field. -/
def truncated_loaded : Vardump where
  num_vectors := 2
  vector_dims := 3
  data := some [0x3FF0000000000000, 0x4000000000000000, 0x4008000000000000,
    0x4010000000000000, 0x4014000000000000, 0x4018000000000000]
  k := 1
  N := 1
  block_size := 1
  outliers := some [1, 0]
  outlier_scores := some [0]

/-- The record layout in the words of the specification: vector count,
dimension count, the `num_vectors * vector_dims` doubles of `data`, `k`, `N`,
`block_size`, `N` index values of one machine word each, and the `N` doubles of
the `outlier_scores` array, every item 8 bytes wide. -/
def record_layout (num_vectors vector_dims : Nat) (data : Nat → Nat) (k N block_size : Nat)
    (outliers outlier_scores : Nat → Nat) : List Nat :=
  object_bytes 8 num_vectors ++ object_bytes 8 vector_dims ++
  ((List.range (num_vectors * vector_dims)).map fun i => object_bytes 8 (data i)).flatten ++
  object_bytes 8 k ++ object_bytes 8 N ++ object_bytes 8 block_size ++
  ((List.range N).map fun i => object_bytes 8 (outliers i)).flatten ++
  ((List.range N).map fun i => object_bytes 8 (outlier_scores i)).flatten

namespace MainC

/-- The globals as the program starts: both flags 0, the device idle with its
interrupts disabled, nothing done yet. -/
def power_on : Machine where
  RunExample := 0
  ResultExample := 0
  global_interrupt_enable := false
  interrupt_enable := 0
  running := false
  line_enabled := false
  trace := []

/-- A state in one-shot mode at the moment the device finishes: started, with
its interrupt enabled and the gate open. -/
def finishing_one_shot : Machine where
  RunExample := 0
  ResultExample := 0
  global_interrupt_enable := true
  interrupt_enable := 1
  running := false
  line_enabled := true
  trace := []

/-- A state in continuous mode at the moment the device finishes. -/
def finishing_continuous : Machine where
  RunExample := 1
  ResultExample := 0
  global_interrupt_enable := true
  interrupt_enable := 1
  running := false
  line_enabled := true
  trace := []

/-- A board on which every call succeeds, neither DMA engine has
scatter-gather, and the completion interrupt is raised before the first poll. -/
def board : Platform where
  XDistance_squared_Initialize := XST_SUCCESS
  XScuGic_LookupConfig := true
  XScuGic_CfgInitialize := XST_SUCCESS
  XScuGic_SelfTest := XST_SUCCESS
  XScuGic_Connect := XST_SUCCESS
  XAxiDma_LookupConfig := fun _ => true
  XAxiDma_CfgInitialize := fun _ => XST_SUCCESS
  XAxiDma_HasSg := fun _ => false
  XAxiDma_SimpleTransfer := fun _ => XST_SUCCESS
  XDistance_squared_GetSum := Double.ofInt 0
  interrupt_after := some 0

/-- The board `board`, except that the accelerator's initialisation fails. -/
def board_accelerator_fails : Platform :=
  { board with XDistance_squared_Initialize := XST_FAILURE }

/-- The board `board`, except that DMA engine A has scatter-gather. -/
def board_scatter_gather : Platform :=
  { board with XAxiDma_HasSg := fun dma => decide (dma = .AxiDmaA) }

/-- Integer elements on which double arithmetic rounds: `2^27` followed by
four ones, then zeros. -/
def rounding_elements (i : Nat) : Int :=
  [2 ^ 27, 1, 1, 1, 1].getD i 0

/-- The vector of doubles with the elements `rounding_elements`. -/
def rounding_vector (i : Nat) : Double := Double.ofInt (rounding_elements i)

/-- The vector of zeros. -/
def zero_vector (_ : Nat) : Double := Double.ofInt 0

/-- The vector whose first element is the double nearest to `10^200` and whose
other elements are zero. -/
def huge_vector (i : Nat) : Double := Double.ofInt (if i = 0 then 10 ^ 200 else 0)

/-- The vector whose first element is `+infinity` and whose other elements
are zero. -/
def infinite_vector (i : Nat) : Double :=
  if i = 0 then Double.infinity false else Double.ofInt 0

/-- The byte length carried by a cache flush or a DMA transfer. -/
def Call.byte_length : Call → Option Nat
  | .Xil_DCacheFlushRange _ length => some length
  | .XAxiDma_SimpleTransfer _ _ length _ => some length
  | _ => none

end MainC

/-! ## Theorems -/

open MainC

/-! ### Effects of the handler and of the run step -/

theorem effects_since_append (m m2 : Machine) (cs : List Call)
    (h : m2.trace = m.trace ++ cs) : effects_since m m2 = cs := by
  simp [effects_since, h]

theorem ExampleStart_trace (m : Machine) :
    (ExampleStart m).trace = m.trace ++ [.XDistance_squared_InterruptEnable 1,
      .XDistance_squared_InterruptGlobalEnable, .XDistance_squared_Start] := by
  simp [ExampleStart, XDistance_squared_Start, XDistance_squared_InterruptGlobalEnable,
    XDistance_squared_InterruptEnable]

theorem ExampleIsr_eq (m : Machine) :
    ExampleIsr m =
      if m.RunExample ≠ 0 then
        { m with ResultExample := 1, global_interrupt_enable := true, interrupt_enable := 1,
                 running := true,
                 trace := m.trace ++ [.XDistance_squared_InterruptGlobalDisable,
                   .XDistance_squared_InterruptDisable 0xffffffff,
                   .XDistance_squared_InterruptClear 1, .write_ResultExample 1,
                   .XDistance_squared_InterruptEnable 1,
                   .XDistance_squared_InterruptGlobalEnable, .XDistance_squared_Start] }
      else
        { m with ResultExample := 1, global_interrupt_enable := false, interrupt_enable := 0,
                 trace := m.trace ++ [.XDistance_squared_InterruptGlobalDisable,
                   .XDistance_squared_InterruptDisable 0xffffffff,
                   .XDistance_squared_InterruptClear 1, .write_ResultExample 1] } := by
  by_cases h : m.RunExample = 0 <;>
  simp [ExampleIsr, h, ExampleStart, XDistance_squared_Start,
      XDistance_squared_InterruptGlobalEnable, XDistance_squared_InterruptEnable,
      XDistance_squared_InterruptClear, Machine.call,
      XDistance_squared_InterruptDisable, XDistance_squared_InterruptGlobalDisable, UINT_RANGE]

theorem ExampleIsr_trace (m : Machine) :
    (ExampleIsr m).trace = m.trace ++
      ([.XDistance_squared_InterruptGlobalDisable, .XDistance_squared_InterruptDisable 0xffffffff,
        .XDistance_squared_InterruptClear 1, .write_ResultExample 1] ++
       if m.RunExample ≠ 0 then [.XDistance_squared_InterruptEnable 1,
          .XDistance_squared_InterruptGlobalEnable, .XDistance_squared_Start] else []) := by
  by_cases h : m.RunExample = 0 <;> simp [ExampleIsr_eq, h]

/-! ### The reference computation -/

theorem bit_length_loop_eq (fuel n : Nat) (h : n ≤ fuel) :
    bit_length_loop fuel n = if n = 0 then 0 else Nat.log 2 n + 1 := by
  induction fuel generalizing n with
  | zero =>
    have : n = 0 := by omega
    simp [bit_length_loop, this]
  | succ k ih =>
    rw [bit_length_loop]
    by_cases hn : n = 0
    · simp [hn]
    · rw [if_neg hn, if_neg hn, ih (n / 2) (by omega)]
      by_cases h2 : n / 2 = 0
      · have : n = 1 := by omega
        simp [this]
      · rw [if_neg h2]
        have : 2 ≤ n := by omega
        rw [Nat.log_of_one_lt_of_le (by norm_num) this]

theorem bit_length_eq (n : Nat) : bit_length n = if n = 0 then 0 else Nat.log 2 n + 1 :=
  bit_length_loop_eq n n (le_refl n)

theorem bit_length_mul_two_pow (m j : Nat) (hm : m ≠ 0) :
    bit_length (m * 2 ^ j) = bit_length m + j := by
  have hm2 : m * 2 ^ j ≠ 0 := by positivity
  rw [bit_length_eq, bit_length_eq, if_neg hm, if_neg hm2]
  induction j with
  | zero => simp
  | succ k ih =>
    have hk : m * 2 ^ k ≠ 0 := by positivity
    rw [pow_succ, ← mul_assoc, Nat.log_mul_base (by norm_num) hk, ih hk]
    omega

theorem lt_two_pow_bit_length (m : Nat) : m < 2 ^ bit_length m := by
  rw [bit_length_eq]
  by_cases hm : m = 0
  · simp [hm]
  · rw [if_neg hm]
    exact Nat.lt_pow_succ_log_self (by norm_num) m

theorem bit_length_le (m k : Nat) (h : m < 2 ^ k) : bit_length m ≤ k := by
  rw [bit_length_eq]
  by_cases hm : m = 0
  · simp [hm]
  · rw [if_neg hm]
    have := Nat.log_lt_of_lt_pow hm h
    omega

theorem Double.round_scale (s : Bool) (m : Nat) (e : Int) (j : Nat) (hm : m ≠ 0) :
    Double.round s (m * 2 ^ j) (e - j) = Double.round s m e := by
  have hm2 : m * 2 ^ j ≠ 0 := by positivity
  unfold Double.round
  rw [if_neg hm, if_neg hm2, bit_length_mul_two_pow m j hm]
  have ht : max (e - (j : Int) + ((bit_length m + j : Nat) : Int) - 53) (-1074)
      = max (e + (bit_length m : Int) - 53) (-1074) := by
    congr 1
    push_cast
    ring
  simp only [ht]
  generalize max (e + (bit_length m : Int) - 53) (-1074) = t
  by_cases h1 : t ≤ e - j
  · have h2 : t ≤ e := by omega
    rw [if_pos h1, if_pos h2]
    congr 1
    rw [mul_assoc, ← pow_add]
    congr 2
    omega
  · by_cases h2 : t ≤ e
    · rw [if_neg h1, if_pos h2]
      obtain ⟨k, hk⟩ : ∃ k : Nat, e - t = k := Int.eq_ofNat_of_zero_le (by omega)
      have hkj : k < j := by omega
      have hs : (t - (e - (j : Int))).toNat = j - k := by omega
      have hs2 : (e - t).toNat = k := by omega
      have hpow : 2 ^ j = 2 ^ k * 2 ^ (j - k) := by
        rw [← pow_add]
        congr 1
        omega
      have hq : m * 2 ^ j / 2 ^ (j - k) = m * 2 ^ k := by
        rw [hpow, ← mul_assoc]
        exact Nat.mul_div_cancel _ (by positivity)
      have hr : m * 2 ^ j % 2 ^ (j - k) = 0 := by
        rw [hpow, ← mul_assoc]
        exact Nat.mul_mod_left _ _
      have hhalf : 0 < 2 ^ (j - k - 1) := by positivity
      simp only [hs, hs2, hq, hr]
      have hc : ¬ (2 ^ (j - k - 1) < 0 ∨ (0 = 2 ^ (j - k - 1) ∧ m * 2 ^ k % 2 = 1)) := by
        omega
      rw [if_neg hc]
    · rw [if_neg h1, if_neg h2]
      obtain ⟨k, hk⟩ : ∃ k : Nat, t - e = k + 1 := by
        obtain ⟨k, hk⟩ := Int.eq_ofNat_of_zero_le (show 0 ≤ t - e - 1 by omega)
        exact ⟨k, by omega⟩
      have hs : (t - (e - (j : Int))).toNat = (k + 1) + j := by omega
      have hs2 : (t - e).toNat = k + 1 := by omega
      have hq : m * 2 ^ j / 2 ^ (k + 1 + j) = m / 2 ^ (k + 1) := by
        rw [pow_add]
        exact Nat.mul_div_mul_right _ _ (by positivity)
      have hr : m * 2 ^ j % 2 ^ (k + 1 + j) = m % 2 ^ (k + 1) * 2 ^ j := by
        rw [pow_add]
        exact Nat.mul_mod_mul_right _ _ _
      have hh : 2 ^ (k + 1 + j - 1) = 2 ^ k * 2 ^ j := by
        rw [← pow_add]
        congr 1
        omega
      have hpos : 0 < 2 ^ j := by positivity
      simp only [hs, hs2, hq, hr, hh, Nat.add_sub_cancel]
      have c1 : 2 ^ k * 2 ^ j < m % 2 ^ (k + 1) * 2 ^ j ↔ 2 ^ k < m % 2 ^ (k + 1) :=
        Nat.mul_lt_mul_right hpos
      have c2 : m % 2 ^ (k + 1) * 2 ^ j = 2 ^ k * 2 ^ j ↔ m % 2 ^ (k + 1) = 2 ^ k :=
        Nat.mul_left_inj (by positivity)
      simp only [c1, c2]

theorem Double.ofInt_eq (n : Int) (h : n.natAbs < 2 ^ 53) :
    ∃ j : Nat, Double.ofInt n = .finite (decide (n < 0)) (n.natAbs * 2 ^ j) (-(j : Int)) := by
  by_cases hn : n.natAbs = 0
  · refine ⟨1074, ?_⟩
    rw [hn, Nat.zero_mul, Double.ofInt, hn, Double.round, if_pos rfl]
    rfl
  · have hlen := bit_length_le _ _ h
    have hlt := lt_two_pow_bit_length n.natAbs
    refine ⟨53 - bit_length n.natAbs, ?_⟩
    unfold Double.ofInt Double.round
    rw [if_neg hn]
    have ht : max ((0 : Int) + (bit_length n.natAbs : Int) - 53) (-1074)
        = (bit_length n.natAbs : Int) - 53 := by omega
    simp only [ht]
    have h1 : (bit_length n.natAbs : Int) - 53 ≤ 0 := by omega
    rw [if_pos h1]
    have hs : ((0 : Int) - ((bit_length n.natAbs : Int) - 53)).toNat
        = 53 - bit_length n.natAbs := by omega
    rw [hs]
    have hq : n.natAbs * 2 ^ (53 - bit_length n.natAbs) < 2 ^ 53 := by
      calc n.natAbs * 2 ^ (53 - bit_length n.natAbs)
          < 2 ^ bit_length n.natAbs * 2 ^ (53 - bit_length n.natAbs) :=
            Nat.mul_lt_mul_of_pos_right hlt (by positivity)
        _ = 2 ^ 53 := by
            rw [← pow_add]
            congr 1
            omega
    unfold Double.pack
    rw [if_neg (by omega), if_neg (by omega)]
    congr 1
    omega

theorem Double.signed_natAbs (s : Bool) (a : Int) (k : Nat) (h : a ≠ 0 → s = decide (a < 0)) :
    Double.signed s (a.natAbs * 2 ^ k) = a * 2 ^ k := by
  unfold Double.signed
  by_cases ha : a = 0
  · subst ha
    cases s <;> simp
  · rw [h ha]
    by_cases hneg : a < 0
    · simp only [hneg, decide_True, if_true]
      push_cast
      rw [abs_of_neg hneg]
      ring
    · simp only [hneg, decide_False]
      push_cast
      rw [abs_of_nonneg (by omega)]

theorem Double.round_neg (s : Bool) (m : Nat) (e : Int) :
    (Double.round s m e).neg = Double.round (!s) m e := by
  simp only [Double.round, Double.pack]
  split_ifs <;> rfl

theorem Double.ofInt_neg (b : Int) (hb : b ≠ 0) : Double.ofInt (-b) = (Double.ofInt b).neg := by
  rw [Double.ofInt, Double.ofInt, Double.round_neg, Int.natAbs_neg]
  congr 1
  by_cases h1 : b < 0
  · have : ¬ -b < 0 := by omega
    simp [h1, this]
  · have : -b < 0 := by omega
    simp [h1, this]

theorem Double.add_int (s t : Bool) (a b : Int) (i j : Nat)
    (hs : a ≠ 0 → s = decide (a < 0)) (ht : b ≠ 0 → t = decide (b < 0))
    (hz : a = 0 → b = 0 → (s && t) = false)
    (hx : a ≠ 0 → Double.ofInt a = Double.finite s (a.natAbs * 2 ^ i) (-(i : Int)))
    (hy : b ≠ 0 → Double.ofInt b = Double.finite t (b.natAbs * 2 ^ j) (-(j : Int))) :
    (Double.finite s (a.natAbs * 2 ^ i) (-(i : Int))).add
      (Double.finite t (b.natAbs * 2 ^ j) (-(j : Int))) = Double.ofInt (a + b) := by
  have hzero : Double.ofInt 0 = Double.finite false 0 (-1074) := by
    simp [Double.ofInt, Double.round]
  have hma : a.natAbs * 2 ^ i = 0 ↔ a = 0 := by
    rw [Nat.mul_eq_zero]
    constructor
    · rintro (h | h)
      · omega
      · exact absurd h (by positivity)
    · intro h
      left
      omega
  have hmb : b.natAbs * 2 ^ j = 0 ↔ b = 0 := by
    rw [Nat.mul_eq_zero]
    constructor
    · rintro (h | h)
      · omega
      · exact absurd h (by positivity)
    · intro h
      left
      omega
  unfold Double.add
  simp only [hma, hmb]
  by_cases ha : a = 0
  · by_cases hb : b = 0
    · rw [if_pos ⟨ha, hb⟩, hz ha hb, ha, hb]
      exact hzero.symm
    · rw [if_neg (fun h => hb h.2), if_neg hb, if_pos ha, ha, zero_add]
      exact (hy hb).symm
  · by_cases hb : b = 0
    · rw [if_neg (fun h => ha h.1), if_pos hb, hb, add_zero]
      exact (hx ha).symm
    · rw [if_neg (fun h => ha h.1), if_neg hb, if_neg ha]
      have e1 : (-(i : Int) - min (-(i : Int)) (-(j : Int))).toNat = max i j - i := by omega
      have e2 : (-(j : Int) - min (-(i : Int)) (-(j : Int))).toNat = max i j - j := by omega
      have e3 : min (-(i : Int)) (-(j : Int)) = (0 : Int) - ((max i j : Nat) : Int) := by omega
      rw [e1, e2, mul_assoc, mul_assoc, ← pow_add, ← pow_add,
        show i + (max i j - i) = max i j by omega, show j + (max i j - j) = max i j by omega,
        Double.signed_natAbs s a _ hs, Double.signed_natAbs t b _ ht, ← add_mul]
      have hpos : (0 : Int) < 2 ^ max i j := by positivity
      by_cases hsum : a + b = 0
      · rw [hsum, zero_mul, if_pos rfl]
        exact hzero.symm
      · have hne : (a + b) * 2 ^ max i j ≠ 0 := mul_ne_zero hsum (ne_of_gt hpos)
        rw [if_neg hne]
        have hneg : decide ((a + b) * 2 ^ max i j < 0) = decide (a + b < 0) := by
          congr 1
          apply propext
          constructor
          · intro h
            by_contra hc
            have : 0 ≤ (a + b) * 2 ^ max i j := mul_nonneg (by omega) (le_of_lt hpos)
            omega
          · intro h
            exact mul_neg_of_neg_of_pos h hpos
        have habs : ((a + b) * 2 ^ max i j).natAbs = (a + b).natAbs * 2 ^ max i j := by
          rw [Int.natAbs_mul, Int.natAbs_pow]
          rfl
        rw [hneg, habs, e3, Double.round_scale _ _ _ _ (by omega)]
        rfl

theorem Double.add_ofInt (a b : Int) (ha : a.natAbs < 2 ^ 53) (hb : b.natAbs < 2 ^ 53) :
    (Double.ofInt a).add (Double.ofInt b) = Double.ofInt (a + b) := by
  obtain ⟨i, hi⟩ := Double.ofInt_eq a ha
  obtain ⟨j, hj⟩ := Double.ofInt_eq b hb
  rw [hi, hj]
  exact Double.add_int _ _ a b i j (fun _ => rfl) (fun _ => rfl) (fun h _ => by simp [h])
    (fun _ => hi) (fun _ => hj)

theorem Double.sub_ofInt (a b : Int) (ha : a.natAbs < 2 ^ 53) (hb : b.natAbs < 2 ^ 53) :
    (Double.ofInt a).sub (Double.ofInt b) = Double.ofInt (a - b) := by
  obtain ⟨i, hi⟩ := Double.ofInt_eq a ha
  obtain ⟨j, hj⟩ := Double.ofInt_eq b hb
  have hsign : b ≠ 0 → (!decide (b < 0)) = decide (-b < 0) := by
    intro hb0
    by_cases h1 : b < 0
    · have : ¬ -b < 0 := by omega
      simp [h1, this]
    · have : -b < 0 := by omega
      simp [h1, this]
  have hy : -b ≠ 0 → Double.ofInt (-b)
      = Double.finite (!decide (b < 0)) ((-b).natAbs * 2 ^ j) (-(j : Int)) := by
    intro hb0
    rw [Double.ofInt_neg b (by omega), hj, Double.neg, Int.natAbs_neg]
  rw [hi, hj, Double.sub, Double.neg, sub_eq_add_neg, ← Int.natAbs_neg b]
  exact Double.add_int _ _ a (-b) i j (fun _ => rfl) (fun h => hsign (by omega))
    (fun h _ => by simp [h]) (fun _ => hi) hy

theorem Double.mul_self_ofInt (a : Int) (ha : a.natAbs < 2 ^ 53) :
    (Double.ofInt a).mul (Double.ofInt a) = Double.ofInt (a * a) := by
  obtain ⟨i, hi⟩ := Double.ofInt_eq a ha
  rw [hi]
  unfold Double.mul
  simp only [Bool.xor_self]
  have hnn : decide (a * a < 0) = false := by
    have := mul_self_nonneg a
    simp
    omega
  by_cases h0 : a = 0
  · subst h0
    simp [Double.ofInt, Double.round]
  · have hab : a.natAbs ≠ 0 := by omega
    have e : a.natAbs * 2 ^ i * (a.natAbs * 2 ^ i) = (a.natAbs * a.natAbs) * 2 ^ (i + i) := by
      rw [pow_add]
      ring
    have e2 : (-(i : Int) + -(i : Int)) = (0 : Int) - ((i + i : Nat) : Int) := by
      push_cast
      ring
    rw [e, e2, Double.round_scale _ _ _ _ (Nat.mul_ne_zero hab hab)]
    unfold Double.ofInt
    rw [hnn, Int.natAbs_mul]

theorem Double.toRat_ofInt (n : Int) (h : n.natAbs < 2 ^ 53) :
    (Double.ofInt n).toRat = some (n : ℚ) := by
  obtain ⟨j, hj⟩ := Double.ofInt_eq n h
  rw [hj, Double.toRat]
  congr 1
  have hpow : ((2 : ℚ) ^ j) * (2 : ℚ) ^ (-(j : Int)) = 1 := by
    rw [zpow_neg, zpow_natCast]
    exact mul_inv_cancel₀ (by positivity)
  have habs : ((n.natAbs : Nat) : ℚ) = |(n : ℚ)| := by
    rw [Nat.cast_natAbs, Int.cast_abs]
  push_cast
  rw [habs, mul_assoc, mul_assoc, hpow, mul_one]
  by_cases hneg : n < 0
  · have : (n : ℚ) < 0 := by exact_mod_cast hneg
    simp [hneg, abs_of_neg this]
  · have : (0 : ℚ) ≤ n := by exact_mod_cast (not_lt.mp hneg)
    simp [hneg, abs_of_nonneg this]


theorem distance_squared_sw_loop_ofInt (a b : Nat → Int) (bound : Int) (todo dim : Nat)
    (acc : Int) (hacc : 0 ≤ acc)
    (h : ∀ i, dim ≤ i → i < dim + todo →
      (a i).natAbs < 2 ^ 53 ∧ (b i).natAbs < 2 ^ 53 ∧ |a i - b i| ≤ bound)
    (hsum : acc + todo * bound ^ 2 < 2 ^ 53) :
    distance_squared_sw_loop (fun i => Double.ofInt (a i)) (fun i => Double.ofInt (b i))
        todo dim (Double.ofInt acc)
      = Double.ofInt (acc + ∑ i in Finset.range todo, (a (dim + i) - b (dim + i)) ^ 2) := by
  induction todo generalizing dim acc with
  | zero => simp [distance_squared_sw_loop]
  | succ n ih =>
    obtain ⟨ha, hb, hd⟩ := h dim (le_refl _) (by omega)
    have hb0 : 0 ≤ bound := le_trans (abs_nonneg _) hd
    have hsq : (a dim - b dim) ^ 2 ≤ bound ^ 2 := by
      rw [← sq_abs (a dim - b dim)]
      exact pow_le_pow_left₀ (abs_nonneg _) hd 2
    have hsq0 : 0 ≤ (a dim - b dim) ^ 2 := sq_nonneg _
    have hn0 : (0 : Int) ≤ (n : Int) * bound ^ 2 := mul_nonneg (by positivity) (sq_nonneg _)
    have hsum2 : acc + ((n : Int) * bound ^ 2 + bound ^ 2) < 2 ^ 53 := by
      have : ((n + 1 : Nat) : Int) * bound ^ 2 = (n : Int) * bound ^ 2 + bound ^ 2 := by
        push_cast
        ring
      rw [← this]
      exact hsum
    have hdiff : (a dim - b dim).natAbs < 2 ^ 53 := by
      have h1 : |a dim - b dim| ≤ (a dim - b dim) ^ 2 := by
        rw [← sq_abs (a dim - b dim)]
        have := abs_nonneg (a dim - b dim)
        nlinarith
      have h2 : |a dim - b dim| < 2 ^ 53 := by omega
      rw [Int.abs_eq_natAbs] at h2
      exact_mod_cast h2
    have hacc2 : acc.natAbs < 2 ^ 53 := by omega
    have hsq2 : ((a dim - b dim) * (a dim - b dim)).natAbs < 2 ^ 53 := by
      rw [← sq]
      omega
    rw [distance_squared_sw_loop]
    rw [Double.sub_ofInt _ _ ha hb, Double.mul_self_ofInt _ hdiff,
      Double.add_ofInt _ _ hacc2 hsq2, ← sq,
      ih (dim + 1) (acc + (a dim - b dim) ^ 2) (by omega)
        (fun i h1 h2 => h i (by omega) (by omega)) (by omega),
      Finset.sum_range_succ']
    have shift : ∀ i, dim + 1 + i = dim + (i + 1) := fun i => by omega
    simp only [shift, Nat.add_zero]
    congr 1
    ring

theorem distance_squared_sw_loop_foldl (vector1 vector2 : Nat → Double) (todo dim : Nat)
    (result : Double) :
    distance_squared_sw_loop vector1 vector2 todo dim result =
      (List.range' dim todo).foldl
        (fun acc i =>
          acc.add (((vector1 i).sub (vector2 i)).mul ((vector1 i).sub (vector2 i)))) result := by
  induction todo generalizing dim result with
  | zero => simp [distance_squared_sw_loop]
  | succ n ih =>
    rw [distance_squared_sw_loop, ih]
    simp [List.range'_succ]

theorem distance_squared_sw_loop_append (vector1 vector2 : Nat → Double) (m n dim : Nat)
    (result : Double) :
    distance_squared_sw_loop vector1 vector2 (m + n) dim result =
      distance_squared_sw_loop vector1 vector2 n (dim + m)
        (distance_squared_sw_loop vector1 vector2 m dim result) := by
  induction m generalizing dim result with
  | zero => simp [distance_squared_sw_loop]
  | succ k ih =>
    rw [show k + 1 + n = (k + n) + 1 by omega, distance_squared_sw_loop, ih,
      distance_squared_sw_loop, show dim + 1 + k = dim + (k + 1) by omega]

theorem distance_squared_sw_loop_fixed (vector1 vector2 : Nat → Double) (n dim : Nat)
    (result : Double)
    (h : ∀ i, dim ≤ i →
      result.add (((vector1 i).sub (vector2 i)).mul ((vector1 i).sub (vector2 i))) = result) :
    distance_squared_sw_loop vector1 vector2 n dim result = result := by
  induction n generalizing dim with
  | zero => rfl
  | succ k ih =>
    rw [distance_squared_sw_loop, h dim (le_refl _)]
    exact ih (dim + 1) (fun i hi => h i (by omega))

set_option maxRecDepth 100000 in
theorem sum_of_squares_below_256 : ∑ i in Finset.range 256, i ^ 2 = 5559680 := by
  decide

theorem sum_of_main_squares :
    ∑ i in Finset.range 256, (((i : Nat) : Int) - ((2 * i : Nat) : Int)) ^ 2 = 5559680 := by
  have square : ∀ i : Nat, (((i : Nat) : Int) - ((2 * i : Nat) : Int)) ^ 2 = ((i ^ 2 : Nat) : Int) := by
    intro i
    push_cast
    ring
  simp only [square]
  rw [← Nat.cast_sum, sum_of_squares_below_256]
  rfl

theorem sum_of_bounded_squares (a b : Nat → Int)
    (h : ∀ i, i < 256 → |a i - b i| ≤ 2 ^ 22) :
    0 ≤ ∑ i in Finset.range 256, (a i - b i) ^ 2 ∧
    ∑ i in Finset.range 256, (a i - b i) ^ 2 < 2 ^ 53 := by
  refine ⟨Finset.sum_nonneg (fun i _ => sq_nonneg _), ?_⟩
  have hle : ∑ i in Finset.range 256, (a i - b i) ^ 2
      ≤ ∑ _i in Finset.range 256, ((2 : Int) ^ 22) ^ 2 := by
    apply Finset.sum_le_sum
    intro i hi
    rw [← sq_abs (a i - b i)]
    exact pow_le_pow_left₀ (abs_nonneg _) (h i (Finset.mem_range.mp hi)) 2
  rw [Finset.sum_const, Finset.card_range] at hle
  have : (256 : Nat) • (((2 : Int) ^ 22) ^ 2) < 2 ^ 53 := by norm_num
  omega

theorem distance_squared_sw_ofInt (a b : Nat → Int)
    (h : ∀ i, i < 256 → |a i| < 2 ^ 53 ∧ |b i| < 2 ^ 53 ∧ |a i - b i| ≤ 2 ^ 22) :
    distance_squared_sw (fun i => Double.ofInt (a i)) (fun i => Double.ofInt (b i))
      = Double.ofInt (∑ i in Finset.range 256, (a i - b i) ^ 2) := by
  have step := distance_squared_sw_loop_ofInt a b (2 ^ 22) 256 0 0 (le_refl 0)
    (fun i _ hi => by
      obtain ⟨h1, h2, h3⟩ := h i (by omega)
      rw [Int.abs_eq_natAbs] at h1 h2
      exact ⟨by exact_mod_cast h1, by exact_mod_cast h2, h3⟩)
    (by norm_num)
  simpa [distance_squared_sw, SIZE] using step

theorem main_vectors_bounded (i : Nat) (hi : i < 256) :
    |((i : Nat) : Int)| < 2 ^ 53 ∧ |((2 * i : Nat) : Int)| < 2 ^ 53 ∧
    |((i : Nat) : Int) - ((2 * i : Nat) : Int)| ≤ 2 ^ 22 := by
  refine ⟨?_, ?_, ?_⟩
  · rw [abs_lt]
    constructor <;> push_cast <;> omega
  · rw [abs_lt]
    constructor <;> push_cast <;> omega
  · rw [abs_le]
    constructor <;> push_cast <;> omega

theorem rounding_elements_cases (i : Nat) :
    (i < 5 ∧ (rounding_elements i = 2 ^ 27 ∨ rounding_elements i = 1)) ∨
    (5 ≤ i ∧ rounding_elements i = 0) := by
  rcases i with _ | _ | _ | _ | _ | i
  all_goals simp [rounding_elements]

set_option maxRecDepth 100000 in
theorem sum_of_rounding_squares :
    ∑ i in Finset.range 256, (rounding_elements i - 0) ^ 2 = 2 ^ 54 + 4 := by
  decide

set_option maxRecDepth 100000 in
theorem rounding_vector_first_five :
    distance_squared_sw_loop rounding_vector zero_vector 5 0 (Double.ofInt 0)
      = Double.finite false (2 ^ 52) 2 := by
  decide

set_option maxRecDepth 100000 in
theorem add_zero_square_at_two_pow_54 :
    (Double.finite false (2 ^ 52) 2).add
        (((Double.ofInt 0).sub (Double.ofInt 0)).mul ((Double.ofInt 0).sub (Double.ofInt 0)))
      = Double.finite false (2 ^ 52) 2 := by
  decide

set_option maxRecDepth 100000 in
set_option exponentiation.threshold 5000 in
theorem huge_vector_first_one :
    distance_squared_sw_loop huge_vector zero_vector 1 0 (Double.ofInt 0)
      = Double.infinity false := by
  decide

set_option maxRecDepth 100000 in
theorem infinite_vector_first_one :
    distance_squared_sw_loop infinite_vector infinite_vector 1 0 (Double.ofInt 0)
      = Double.nan := by
  decide

set_option maxRecDepth 100000 in
theorem add_zero_square_at_infinity :
    (Double.infinity false).add
        (((Double.ofInt 0).sub (Double.ofInt 0)).mul ((Double.ofInt 0).sub (Double.ofInt 0)))
      = Double.infinity false := by
  decide

/-- Claim C4, as stated, fails: the code computes in doubles.  On the vector
`2^27, 1, 1, 1, 1, 0, ...` against the zero vector the exact sum of squared
differences is `2^54 + 4`, which is a double, but `distance_squared_sw`
returns `2^54`: each added 1 is lost to rounding.  On a vector that starts
with `1e200` the square overflows and the result is infinity; on two vectors
that start with `+infinity` the difference, and with it the result, is NaN. -/
theorem distance_squared_sw_rounds :
    (∀ i, (rounding_vector i).toRat = some (rounding_elements i : ℚ)) ∧
    (∀ i, (zero_vector i).toRat = some 0) ∧
    ∑ i in Finset.range 256, (rounding_elements i - 0) ^ 2 = 2 ^ 54 + 4 ∧
    distance_squared_sw rounding_vector zero_vector = Double.finite false (2 ^ 52) 2 ∧
    (distance_squared_sw rounding_vector zero_vector).toRat = some (2 ^ 54) ∧
    (distance_squared_sw rounding_vector zero_vector).toRat
      ≠ some ((∑ i in Finset.range 256, (rounding_elements i - 0) ^ 2 : Int) : ℚ) ∧
    distance_squared_sw huge_vector zero_vector = Double.infinity false ∧
    distance_squared_sw infinite_vector infinite_vector = Double.nan := by
  have hsum := sum_of_rounding_squares
  have hrun : distance_squared_sw rounding_vector zero_vector
      = Double.finite false (2 ^ 52) 2 := by
    rw [distance_squared_sw, SIZE, show 256 = 5 + 251 by rfl, distance_squared_sw_loop_append,
      rounding_vector_first_five]
    apply distance_squared_sw_loop_fixed
    intro i hi
    have hz : rounding_vector i = Double.ofInt 0 := by
      rcases rounding_elements_cases i with ⟨h1, _⟩ | ⟨_, h2⟩
      · omega
      · rw [rounding_vector, h2]
    rw [hz, zero_vector]
    exact add_zero_square_at_two_pow_54
  have hone := huge_vector_first_one
  have hval : (Double.finite false (2 ^ 52) 2).toRat = some (2 ^ 54) := by
    rw [Double.toRat]
    norm_num
  refine ⟨?_, ?_, hsum, hrun, ?_, ?_, ?_, ?_⟩
  · intro i
    apply Double.toRat_ofInt
    rcases rounding_elements_cases i with ⟨_, h1 | h1⟩ | ⟨_, h1⟩ <;> rw [h1] <;> decide
  · intro i
    rw [zero_vector, Double.toRat_ofInt 0 (by decide)]
    simp
  · rw [hrun, hval]
  · rw [hrun, hval, hsum]
    norm_num
  · rw [distance_squared_sw, SIZE, show 256 = 1 + 255 by rfl, distance_squared_sw_loop_append,
      hone]
    apply distance_squared_sw_loop_fixed
    intro i hi
    have hz : huge_vector i = Double.ofInt 0 := by
      rw [huge_vector, if_neg (by omega)]
    rw [hz, zero_vector]
    exact add_zero_square_at_infinity
  · rw [distance_squared_sw, SIZE, show 256 = 1 + 255 by rfl, distance_squared_sw_loop_append,
      infinite_vector_first_one]
    apply distance_squared_sw_loop_fixed
    intro i hi
    generalize ((infinite_vector i).sub (infinite_vector i)).mul
      ((infinite_vector i).sub (infinite_vector i)) = square
    cases square <;> rfl

/-- Claim C4, amended.  `distance_squared_sw` is the accumulation, from `+0`
and in index order `i = 0, ..., 255`, of the rounded squares of the rounded
differences `vector1[i] - vector2[i]`, every operation rounded to the nearest
double.  When the elements are integers of magnitude below `2^53` whose
differences have magnitude at most `2^22`, nothing is rounded and the result
is the double that equals the exact sum of the squared differences.  For
`A[i] = i` and `B[i] = 2*i`, the vectors `main` builds, the result is
5,559,680.  The function is pure: its result is a number and its arguments are
only read. -/
theorem distance_squared_sw_integer_vectors (a b : Nat → Int)
    (h : ∀ i, i < 256 → |a i| < 2 ^ 53 ∧ |b i| < 2 ^ 53 ∧ |a i - b i| ≤ 2 ^ 22) :
    distance_squared_sw (fun i => Double.ofInt (a i)) (fun i => Double.ofInt (b i))
      = Double.ofInt (∑ i in Finset.range 256, (a i - b i) ^ 2) ∧
    (distance_squared_sw (fun i => Double.ofInt (a i)) (fun i => Double.ofInt (b i))).toRat
      = some ((∑ i in Finset.range 256, (a i - b i) ^ 2 : Int) : ℚ) ∧
    (∀ vector1 vector2 : Nat → Double,
      distance_squared_sw vector1 vector2
        = (List.range 256).foldl
            (fun acc i =>
              acc.add (((vector1 i).sub (vector2 i)).mul ((vector1 i).sub (vector2 i))))
            (Double.ofInt 0)) ∧
    distance_squared_sw main_A main_B = Double.ofInt 5559680 ∧
    (distance_squared_sw main_A main_B).toRat = some 5559680 := by
  have hmain : distance_squared_sw main_A main_B = Double.ofInt 5559680 := by
    have := distance_squared_sw_ofInt (fun i => ((i : Nat) : Int))
      (fun i => ((2 * i : Nat) : Int)) main_vectors_bounded
    rw [sum_of_main_squares] at this
    exact this
  have hbound := sum_of_bounded_squares a b (fun i hi => (h i hi).2.2)
  refine ⟨distance_squared_sw_ofInt a b h, ?_, ?_, hmain, ?_⟩
  · rw [distance_squared_sw_ofInt a b h]
    apply Double.toRat_ofInt
    omega
  · intro vector1 vector2
    simp [distance_squared_sw, distance_squared_sw_loop_foldl, SIZE, List.range_eq_range']
  · rw [hmain, Double.toRat_ofInt 5559680 (by decide)]
    simp

/-- Claim C4, amended, at the vectors of `main`: `A[i] = i`, `B[i] = 2*i`. -/
theorem distance_squared_sw_integer_vectors_witness :
    distance_squared_sw main_A main_B
      = Double.ofInt (∑ i in Finset.range 256, (((i : Nat) : Int) - ((2 * i : Nat) : Int)) ^ 2) ∧
    (distance_squared_sw main_A main_B).toRat = some 5559680 :=
  ⟨(distance_squared_sw_integer_vectors (fun i => ((i : Nat) : Int))
      (fun i => ((2 * i : Nat) : Int)) main_vectors_bounded).1,
   (distance_squared_sw_integer_vectors (fun i => ((i : Nat) : Int))
      (fun i => ((2 * i : Nat) : Int)) main_vectors_bounded).2.2.2.2⟩

/-! ### The completion handler -/

/-- Claim C5.  From every state, after `ExampleIsr` the flag `ResultExample` is
1.  With `RunExample = 0` the handler issues no start, leaves the running flag
as it found it, and leaves the global gate closed and every local interrupt
source disabled.  With `RunExample ≠ 0` the last three effects of the handler
are: enable the local interrupt, open the global gate, start; afterwards the
device is running with the gate open and the local interrupt enabled. -/
theorem ExampleIsr_completion (m : Machine) :
    (ExampleIsr m).ResultExample = 1 ∧
    (m.RunExample = 0 →
      Call.XDistance_squared_Start ∉ effects_since m (ExampleIsr m) ∧
      (ExampleIsr m).running = m.running ∧
      (ExampleIsr m).global_interrupt_enable = false ∧
      (ExampleIsr m).interrupt_enable = 0) ∧
    (m.RunExample ≠ 0 →
      [Call.XDistance_squared_InterruptEnable 1, Call.XDistance_squared_InterruptGlobalEnable,
        Call.XDistance_squared_Start] <:+ effects_since m (ExampleIsr m) ∧
      (ExampleIsr m).running = true ∧
      (ExampleIsr m).global_interrupt_enable = true ∧
      (ExampleIsr m).interrupt_enable = 1) := by
  refine ⟨?_, ?_, ?_⟩
  · rw [ExampleIsr_eq]; split <;> rfl
  · intro h
    rw [effects_since_append m _ _ (ExampleIsr_trace m)]
    simp [ExampleIsr_eq, h]
  · intro h
    rw [effects_since_append m _ _ (ExampleIsr_trace m)]
    simp [ExampleIsr_eq, h]
    exact ⟨[_, _, _, _], rfl⟩

/-- Both modes of claim C5 at concrete states: a one-shot completion and a
continuous completion. -/
theorem ExampleIsr_completion_witness :
    (Call.XDistance_squared_Start ∉
        effects_since finishing_one_shot (ExampleIsr finishing_one_shot) ∧
      (ExampleIsr finishing_one_shot).running = finishing_one_shot.running ∧
      (ExampleIsr finishing_one_shot).global_interrupt_enable = false ∧
      (ExampleIsr finishing_one_shot).interrupt_enable = 0) ∧
    ([Call.XDistance_squared_InterruptEnable 1, Call.XDistance_squared_InterruptGlobalEnable,
        Call.XDistance_squared_Start] <:+
        effects_since finishing_continuous (ExampleIsr finishing_continuous) ∧
      (ExampleIsr finishing_continuous).running = true ∧
      (ExampleIsr finishing_continuous).global_interrupt_enable = true ∧
      (ExampleIsr finishing_continuous).interrupt_enable = 1) :=
  ⟨(ExampleIsr_completion finishing_one_shot).2.1 (by decide),
   (ExampleIsr_completion finishing_continuous).2.2 (by decide)⟩

/-- Claim C8.  The effects of `ExampleIsr`, in order, are: close the global
gate, disable all local interrupt sources, clear the pending interrupt (mask
1), write `ResultExample = 1`, and then, only when `RunExample ≠ 0`, the
restart (enable the local interrupt, open the gate, start).  The first effect
touches nothing but the gate. -/
theorem ExampleIsr_effect_order (m : Machine) :
    effects_since m (ExampleIsr m) =
      [Call.XDistance_squared_InterruptGlobalDisable,
       Call.XDistance_squared_InterruptDisable 0xffffffff,
       Call.XDistance_squared_InterruptClear 1,
       Call.write_ResultExample 1] ++
      (if m.RunExample ≠ 0 then
        [Call.XDistance_squared_InterruptEnable 1, Call.XDistance_squared_InterruptGlobalEnable,
         Call.XDistance_squared_Start]
       else []) ∧
    (XDistance_squared_InterruptGlobalDisable m).global_interrupt_enable = false ∧
    (XDistance_squared_InterruptGlobalDisable m).ResultExample = m.ResultExample ∧
    (XDistance_squared_InterruptGlobalDisable m).RunExample = m.RunExample ∧
    (XDistance_squared_InterruptGlobalDisable m).interrupt_enable = m.interrupt_enable ∧
    (XDistance_squared_InterruptGlobalDisable m).running = m.running :=
  ⟨effects_since_append m _ _ (ExampleIsr_trace m), rfl, rfl, rfl, rfl, rfl⟩

/-! ### The run step and the completion flag -/

/-- Claim C6.  Whatever the lookups and initialisations answer, if DMA engine
A or DMA engine B reports scatter-gather then `init_dma` returns `XST_FAILURE`
(which is not `XST_SUCCESS`) and none of its effects is an interrupt-disable
call; and `init_dma` returns `XST_SUCCESS` exactly when both lookups and both
initialisations succeeded and neither engine reports scatter-gather. -/
theorem init_dma_scatter_gather (p : Platform) (m : Machine) :
    ((p.XAxiDma_HasSg .AxiDmaA = true ∨ p.XAxiDma_HasSg .AxiDmaB = true) →
      (init_dma p m).1 = XST_FAILURE ∧ (init_dma p m).1 ≠ XST_SUCCESS ∧
      ∀ dma direction,
        Call.XAxiDma_IntrDisable dma direction ∉ effects_since m (init_dma p m).2) ∧
    ((init_dma p m).1 = XST_SUCCESS ↔
      (p.XAxiDma_LookupConfig .AxiDmaA = true ∧ p.XAxiDma_LookupConfig .AxiDmaB = true ∧
       p.XAxiDma_CfgInitialize .AxiDmaA = XST_SUCCESS ∧
       p.XAxiDma_CfgInitialize .AxiDmaB = XST_SUCCESS ∧
       p.XAxiDma_HasSg .AxiDmaA = false ∧ p.XAxiDma_HasSg .AxiDmaB = false)) := by
  have hne : XST_FAILURE ≠ XST_SUCCESS := by decide
  cases hA : p.XAxiDma_LookupConfig .AxiDmaA <;>
  cases hB : p.XAxiDma_LookupConfig .AxiDmaB <;>
  by_cases hiA : p.XAxiDma_CfgInitialize .AxiDmaA = XST_SUCCESS <;>
  by_cases hiB : p.XAxiDma_CfgInitialize .AxiDmaB = XST_SUCCESS <;>
  cases hsA : p.XAxiDma_HasSg .AxiDmaA <;>
  cases hsB : p.XAxiDma_HasSg .AxiDmaB <;>
  simp [init_dma, effects_since, Machine.call, hA, hB, hiA, hiB, hsA, hsB, hne]

/-- Claim C6 at concrete boards: with scatter-gather on engine A `init_dma`
fails without an interrupt-disable call, and on the plain board it succeeds. -/
theorem init_dma_scatter_gather_witness :
    ((init_dma board_scatter_gather power_on).1 = XST_FAILURE ∧
      (init_dma board_scatter_gather power_on).1 ≠ XST_SUCCESS ∧
      ∀ dma direction, Call.XAxiDma_IntrDisable dma direction ∉
        effects_since power_on (init_dma board_scatter_gather power_on).2) ∧
    (init_dma board power_on).1 = XST_SUCCESS :=
  ⟨(init_dma_scatter_gather board_scatter_gather power_on).1 (Or.inl (by decide)),
   (init_dma_scatter_gather board power_on).2.mpr (by decide)⟩

/-! ### The bring-up sequence of `main` -/

/-- `SetupInterrupt` only adds effects. -/
theorem SetupInterrupt_trace_grows (p : Platform) (m : Machine) :
    m.trace <+: (SetupInterrupt p m).2.trace := by
  cases hL : p.XScuGic_LookupConfig <;>
  by_cases hC : p.XScuGic_CfgInitialize = XST_SUCCESS <;>
  by_cases hT : p.XScuGic_SelfTest = XST_SUCCESS <;>
  by_cases hK : p.XScuGic_Connect = XST_SUCCESS <;>
  simp [SetupInterrupt, Machine.call, hL, hC, hT, hK]

/-- `init_dma` only adds effects. -/
theorem init_dma_trace_grows (p : Platform) (m : Machine) :
    m.trace <+: (init_dma p m).2.trace := by
  cases hA : p.XAxiDma_LookupConfig .AxiDmaA <;>
  cases hB : p.XAxiDma_LookupConfig .AxiDmaB <;>
  by_cases hiA : p.XAxiDma_CfgInitialize .AxiDmaA = XST_SUCCESS <;>
  by_cases hiB : p.XAxiDma_CfgInitialize .AxiDmaB = XST_SUCCESS <;>
  cases hsA : p.XAxiDma_HasSg .AxiDmaA <;>
  cases hsB : p.XAxiDma_HasSg .AxiDmaB <;>
  simp [init_dma, Machine.call, hA, hB, hiA, hiB, hsA, hsB]

/-- The handler, when it runs, only adds effects. -/
theorem completion_interrupt_trace_grows (p : Platform) (polls : Nat) (m : Machine) :
    m.trace <+: (completion_interrupt p polls m).trace := by
  unfold completion_interrupt
  split
  · split
    · rw [ExampleIsr_trace]; simp
    · simp
  · simp

/-- The wait of `main` only adds effects. -/
theorem wait_for_core_trace_grows (p : Platform) (steps polls : Nat) (m m2 : Machine)
    (h : wait_for_core p steps polls m = some m2) : m.trace <+: m2.trace := by
  induction steps generalizing polls m with
  | zero => simp [wait_for_core] at h
  | succ n ih =>
    rw [wait_for_core] at h
    have step := completion_interrupt_trace_grows p polls m
    by_cases hflag : (completion_interrupt p polls m).ResultExample ≠ 0
    · rw [if_pos hflag] at h
      cases h
      exact step
    · rw [if_neg hflag] at h
      exact step.trans ((List.prefix_append _ _).trans (ih _ _ h))

/-- On every board, whatever the statuses of `ExampleSetup`, `SetupInterrupt`
and `init_dma`, `main` starts the device and issues the transfer of `A`. -/
theorem main_always_starts_and_transfers (p : Platform) (steps : Nat) (m : Machine) :
    Call.XDistance_squared_Start ∈ (MainC.main p steps m).2.trace ∧
    Call.XAxiDma_SimpleTransfer .AxiDmaA .A dma_size .XAXIDMA_DMA_TO_DEVICE
      ∈ (MainC.main p steps m).2.trace := by
  have hstart : ∀ m0 : Machine, Call.XDistance_squared_Start ∈
      (init_dma p (ExampleStart m0)).2.trace := fun m0 =>
    (init_dma_trace_grows p (ExampleStart m0)).subset (by simp [ExampleStart_trace])
  unfold MainC.main
  simp only [Machine.call]
  generalize (if (ExampleSetup p _).1 ≠ XST_SUCCESS then _ else _ : Machine) = m1
  generalize (if (SetupInterrupt p m1).1 ≠ XST_SUCCESS then _ else _ : Machine) = m2
  have h2 := hstart m2
  split
  · simp [h2]
  · split
    · simp [h2]
    · split
      · simp [h2]
      · rename_i m3 hw
        have hp := wait_for_core_trace_grows _ _ _ _ _ hw
        simp only [List.mem_append]
        refine ⟨Or.inl (Or.inl (Or.inl (Or.inl (hp.subset ?_)))), Or.inl (Or.inl (Or.inl (Or.inl (hp.subset ?_))))⟩
        · simp [h2]
        · simp

/-- Claim C7 (fails on the code).  On a board whose accelerator initialisation
fails, `ExampleSetup` returns `XST_FAILURE`, and `main` then prints a message
and goes on: it runs the interrupt setup, starts the device, configures the
DMA engines, issues both transfers and returns 0.  On a board where `init_dma`
fails (scatter-gather on engine A) both transfers are issued as well. -/
theorem main_continues_after_failed_setup :
    (ExampleSetup board_accelerator_fails power_on).1 = XST_FAILURE ∧
    (MainC.main board_accelerator_fails 1 power_on).1 = some 0 ∧
    (MainC.main board_accelerator_fails 1 power_on).2.trace.take 29 =
      [.init_platform,
       .xil_printf .example_of_autoesl_and_dma_transfers,
       .XDistance_squared_Initialize,
       .xil_printf .example_setup_failed,
       .XScuGic_LookupConfig,
       .XScuGic_CfgInitialize,
       .XScuGic_SelfTest,
       .Xil_ExceptionInit,
       .Xil_ExceptionRegisterHandler,
       .Xil_ExceptionEnable,
       .XScuGic_Connect,
       .XScuGic_Enable,
       .XDistance_squared_InterruptEnable 1,
       .XDistance_squared_InterruptGlobalEnable,
       .XDistance_squared_Start,
       .XAxiDma_LookupConfig .AxiDmaA,
       .XAxiDma_LookupConfig .AxiDmaB,
       .XAxiDma_CfgInitialize .AxiDmaA,
       .XAxiDma_CfgInitialize .AxiDmaB,
       .XAxiDma_HasSg .AxiDmaA,
       .XAxiDma_HasSg .AxiDmaB,
       .XAxiDma_IntrDisable .AxiDmaA .XAXIDMA_DEVICE_TO_DMA,
       .XAxiDma_IntrDisable .AxiDmaA .XAXIDMA_DMA_TO_DEVICE,
       .XAxiDma_IntrDisable .AxiDmaB .XAXIDMA_DEVICE_TO_DMA,
       .XAxiDma_IntrDisable .AxiDmaB .XAXIDMA_DMA_TO_DEVICE,
       .Xil_DCacheFlushRange .A 1024,
       .Xil_DCacheFlushRange .B 1024,
       .XAxiDma_SimpleTransfer .AxiDmaA .A 1024 .XAXIDMA_DMA_TO_DEVICE,
       .XAxiDma_SimpleTransfer .AxiDmaB .B 1024 .XAXIDMA_DMA_TO_DEVICE] ∧
    (init_dma board_scatter_gather (ExampleStart power_on)).1 = XST_FAILURE ∧
    (MainC.main board_scatter_gather 1 power_on).1 = some 0 ∧
    Call.XAxiDma_SimpleTransfer .AxiDmaA .A 1024 .XAXIDMA_DMA_TO_DEVICE
      ∈ (MainC.main board_scatter_gather 1 power_on).2.trace ∧
    Call.XAxiDma_SimpleTransfer .AxiDmaB .B 1024 .XAXIDMA_DMA_TO_DEVICE
      ∈ (MainC.main board_scatter_gather 1 power_on).2.trace := by
  decide

/-- Claim C10 (fails on the code).  `dma_size` is `SIZE * sizeof(unsigned int)`,
that is 1024 bytes, half the 2048 bytes of a vector of `SIZE` doubles; the two
cache flushes and the two DMA transfers of `main` all carry 1024. -/
theorem dma_size_is_half_a_vector :
    dma_size = 1024 ∧
    SIZE * sizeof_double = 2048 ∧
    dma_size ≠ SIZE * sizeof_double ∧
    (MainC.main board 1 power_on).2.trace.filterMap Call.byte_length
      = [1024, 1024, 1024, 1024] := by
  decide

/-! ### `vardump.cpp` -/

/-- Claim C1 (fails on the code).  In the scenario of the claim, `save_vardump`
succeeds and both loaders succeed on what it wrote, and they give back
`num_vectors`, `vector_dims`, `data`, `k`, `N`, `block_size` and the outlier
index as saved; the loaded outlier score, however, is the address held by the
caller's pointer, `0x7ffd12345678`, and not the saved score 2.5.  In the same
scenario with `N = 0` every field comes back as saved. -/
theorem round_trip_loses_outlier_scores :
    save_vardump 8 scenario_medium 2 3 scenario_data 1 1 1 scenario_outliers scenario_scores
      = .ok (.SUCCESS, some scenario_file) ∧
    read_vardump_from_file 8 scenario_heap (some scenario_file) true blank
      = .ok (.SUCCESS, scenario_loaded) ∧
    read_vardump_from_array 8 scenario_heap (region_of_bytes scenario_file) 0 blank
      = .ok (.SUCCESS, scenario_loaded, 104) ∧
    scenario_loaded.data = some ((List.range 6).map scenario_data) ∧
    scenario_loaded.outliers.map (List.take 1) = some ((List.range 1).map scenario_outliers) ∧
    scenario_loaded.outlier_scores = some [scenario_scores.address] ∧
    scenario_loaded.outlier_scores ≠ some ((List.range 1).map scenario_scores.pointee) ∧
    save_vardump 8 scenario_medium 2 3 scenario_data 1 0 1 scenario_outliers scenario_scores
      = .ok (.SUCCESS, some scenario_file_no_outliers) ∧
    read_vardump_from_file 8 scenario_heap (some scenario_file_no_outliers) true blank
      = .ok (.SUCCESS, scenario_loaded_no_outliers) ∧
    read_vardump_from_array 8 scenario_heap (region_of_bytes scenario_file_no_outliers) 0 blank
      = .ok (.SUCCESS, scenario_loaded_no_outliers, 88) := by
  decide

/-- Claim C2 (fails on the code).  In the scenario, the bytes that
`save_vardump` writes have the length the layout asks for, 104, and agree with
the layout of the specification on the first 96 bytes (everything up to and
including the outlier index); the last 8 bytes are the bytes of the caller's
pointer and not those of the score, so the file is not the layout. -/
theorem saved_bytes_differ_from_record_layout :
    save_vardump 8 scenario_medium 2 3 scenario_data 1 1 1 scenario_outliers scenario_scores
      = .ok (.SUCCESS, some scenario_file) ∧
    scenario_file.length = 8 * (5 + 2 * 3 + 2 * 1) ∧
    scenario_file.take 96
      = (record_layout 2 3 scenario_data 1 1 1 scenario_outliers scenario_scores.pointee).take 96 ∧
    scenario_file.drop 96 = object_bytes 8 scenario_scores.address ∧
    scenario_file.drop 96 = [0x78, 0x56, 0x34, 0x12, 0xfd, 0x7f, 0, 0] ∧
    (record_layout 2 3 scenario_data 1 1 1 scenario_outliers scenario_scores.pointee).drop 96
      = [0, 0, 0, 0, 0, 0, 0x04, 0x40] ∧
    scenario_file
      ≠ record_layout 2 3 scenario_data 1 1 1 scenario_outliers scenario_scores.pointee := by
  decide

/-- Claim C3 (fails on the code).  The file `scenario_file` cut after 96 bytes
announces 2 vectors of 3 dimensions and 1 outlier, hence 104 bytes, and ends
before the score.  The helper reports the short read of the score as
`FILE_IO_ERROR`, yet `read_vardump_from_file` returns `SUCCESS`. -/
theorem truncated_file_is_accepted :
    (scenario_file.take 96).length < 8 * (5 + 2 * 3 + 2 * 1) ∧
    (malloc_read_variable_from_file scenario_heap sizeof_double 1
        { bytes := scenario_file.take 96, pos := 96, room := 0 }).1 = .FILE_IO_ERROR ∧
    read_vardump_from_file 8 scenario_heap (some (scenario_file.take 96)) true blank
      = .ok (.SUCCESS, truncated_loaded) := by
  decide

/-- Whatever the file holds, when the allocator never refuses and `fclose`
succeeds, a `read_vardump_from_file` that returns returns `SUCCESS`: the
statuses of the reads never reach the caller. -/
theorem read_vardump_from_file_status (steps : Nat) (heap : Heap) (content : List Nat)
    (v : Vardump) (r : Status × Vardump) (h : ∀ n, heap.refuses n = false)
    (hr : read_vardump_from_file steps heap (some content) true v = .ok r) :
    r.1 = .SUCCESS := by
  simp only [read_vardump_from_file, malloc, h, Bool.false_eq_true, if_false] at hr
  simp only [bind, Except.bind] at hr
  split at hr
  · cases hr
  · simp at hr
    rw [← hr]
